import Mathlib

/-!
Verification development for the tududi-gh-sync reconciliation service.

The development shallowly embeds the Go sources of the repository:

* The primary model follows the most evolved source variant
  (`src/unnamed/part_002`): integer task statuses (`0` not-started, `1`
  in-progress, `2` completed), task deduplication keyed by
  `"<projectID>|<normalized title>"`, dry-run mode with negative mock
  project ids, and a debug-mode flag.  `syncIssuesToTududi` is modelled as
  a sequential fold over the issue list carrying the in-cycle indexes
  (`projectMap`, `taskDedupMap`) and emitting a trace of effects (HTTP
  mutations and the decision-relevant log lines).  The id returned by the
  sink for `POST /project` is abstracted as an oracle `Nat → Int` indexed
  by the call number; `0` models a failed creation, exactly as in the Go
  code (`createTududiProject` returns `0` on error).
* The `StrSync` namespace embeds the string-status drift comparison of the
  second `main.go` variant, whose `fmt.Sprintf("%v", task.Status)` form is
  modelled by storing the printed status string directly
  (`tududiIsDone`, including the `"archived"` case).
* The snapshot loaders (`fetchTududiProjects`, `fetchTududiTasks`) are
  modelled over an abstract wire shape: each HTTP GET either fails
  (transport/HTTP error, `Option.none`) or yields a body that is an
  object-wrapped list, a bare list, some other JSON object (which Go
  decodes into the wrapper struct leaving the slice empty), or malformed
  JSON (both decodes fail).
* `runSync` embeds the cycle driver: the current-user fetch, the issue
  search, the owned-repository listing (each fallible), the
  `processedIDs` de-duplication and the 50-issue cap, feeding the
  collected issues into `syncIssuesToTududi`.

Informational-only log lines that carry no decision content (for example
the "Loaded N existing projects" summary) are not part of the effect
trace; every mutating call and every dry-run/decision log of the engine
loop is.
-/

/-! ## Identity and normalization (Go `normalizeName`) -/

/-- Substitution of one character by another, the character-level content of
Go `strings.ReplaceAll` for single-character patterns. -/
def replChar (a b c : Char) : Char := if c = a then b else c

/-- Whitespace predicate of Go `strings.TrimSpace` restricted to ASCII:
space, tab, newline, vertical tab, form feed, carriage return. -/
def isGoSpace (c : Char) : Bool :=
  c = ' ' || c = '\t' || c = '\n' || c = '\x0b' || c = '\x0c' || c = '\r'

/-- Left trim: Go `strings.TrimSpace`, leading side. -/
def ltrimChars (l : List Char) : List Char := l.dropWhile isGoSpace

/-- Right trim: Go `strings.TrimSpace`, trailing side. -/
def rtrimChars (l : List Char) : List Char :=
  (l.reverse.dropWhile isGoSpace).reverse

/-- Go `strings.TrimSpace` on a character list. -/
def trimChars (l : List Char) : List Char := rtrimChars (ltrimChars l)

/-- Character pipeline of Go `normalizeName`: `strings.ToLower`, then
`ReplaceAll "-" " "`, then `ReplaceAll "_" " "`, then `TrimSpace`. -/
def normalizeChars (l : List Char) : List Char :=
  trimChars (((l.map Char.toLower).map (replChar '-' ' ')).map (replChar '_' ' '))

/-- Go `normalizeName` (identical in every source variant): lower-case,
replace `-` and `_` by spaces, trim surrounding whitespace. -/
def normalizeName (name : String) : String := String.mk (normalizeChars name.data)

/-- Per-character canonical form: the composition of the three
character-wise stages of `normalizeName`. -/
def canonChar (c : Char) : Char := replChar '_' ' ' (replChar '-' ' ' (Char.toLower c))

/-- Go `strings.ToLower` (character-wise ASCII case mapping). -/
def goToLower (s : String) : String := String.mk (s.data.map Char.toLower)

/-- Go `strings.Contains`: substring (contiguous) containment. -/
def strContains (s sub : String) : Bool := decide (sub.data <:+: s.data)

/-! ## Priority inference (Go `createTududiTask` label scan) -/

/-- Condition under which one label forces high priority in
`createTududiTask`: its lower-cased name contains `"urgent"` or `"high"`. -/
def labelTriggersHigh (label : String) : Bool :=
  let lname := goToLower label
  strContains lname "urgent" || strContains lname "high"

/-- Priority scan of `createTududiTask`: start from `"medium"`, and each
label whose lower-cased name contains `"urgent"` or `"high"` sets the
accumulator to `"high"` (never resetting it). -/
def inferPriority (labels : List String) : String :=
  labels.foldl (fun priority label => if labelTriggersHigh label then "high" else priority)
    "medium"

/-! ## Data structures (`part_002`) -/

/-- Tududi status constants of `part_002`. -/
def StatusNotStarted : Int := 0

/-- Tududi in-progress status constant of `part_002`. -/
def StatusInProgress : Int := 1

/-- Tududi completed status constant of `part_002`. -/
def StatusCompleted : Int := 2

/-- The `Project` struct of `part_002` as decoded from the sink
(`Status` is `interface{}` in Go and never read by the engine; its printed
form is kept as a string). -/
structure GoProject where
  id : Int
  name : String
  description : String
  status : String
deriving DecidableEq

/-- The `Task` struct of `part_002` (integer status). -/
structure GoTask where
  id : Int
  name : String
  status : Int
  projectID : Int
  uid : String
deriving DecidableEq

/-- Repository detail carried by a source issue (the fields of
`github.Repository` the program reads: name, description, archived). -/
structure GoRepo where
  name : String
  description : String
  archived : Bool
deriving DecidableEq

/-- Source issue record: the fields of `github.Issue` the program reads.
`milestoneDue` holds the already-formatted RFC3339 due date of the
milestone when present. -/
structure GoIssue where
  id : Int
  number : Nat
  title : String
  body : String
  htmlURL : String
  state : String
  labels : List String
  isPR : Bool
  repo : Option GoRepo
  repositoryURL : Option String
  milestoneDue : Option String
deriving DecidableEq

/-! ## Effect trace -/

/-- One observable action of a cycle: a real sink mutation (HTTP request)
or a decision-relevant log line. -/
inductive Effect where
  | createProjectReq (name description status : String)
  | createTaskReq (title note : String) (status : Int) (priority : String)
      (projectID : Int) (tags : List String) (dueDate : Option String)
  | patchTaskReq (taskID : Int) (status : Int)
  | logCreatingProject (name : String)
  | logDryRunCreateProject (name : String)
  | logDryRunCreateTask (title : String) (status : Int)
  | logDryRunPatchTask (taskID : Int) (status : Int)
  | logUpdateCompleted (name : String)
  | logUpdateReopened (name : String)
  | logDedupMatch (name : String)
  | logNoDedupMatch (key : String)
  | logUserError
  | logSearchError
  | logReposError
  | logRepoIssuesError (repoName : String)
deriving DecidableEq

/-- Predicate: the effect is a real mutating sink call. -/
def Effect.isMutating : Effect → Bool
  | .createProjectReq _ _ _ => true
  | .createTaskReq _ _ _ _ _ _ _ => true
  | .patchTaskReq _ _ => true
  | _ => false

/-- Predicate: the effect is a real task-create call. -/
def Effect.isTaskCreate : Effect → Bool
  | .createTaskReq _ _ _ _ _ _ _ => true
  | _ => false

/-! ## Engine configuration and in-cycle state -/

/-- Run configuration: the `DRY_RUN` and `DEBUG` environment flags, and the
oracle giving the id returned by the sink for the n-th real
`POST /project` call of the cycle (`0` models a failed creation). -/
structure Config where
  dryRun : Bool
  debugMode : Bool
  oracle : Nat → Int

/-- Association-list lookup with Go-map semantics (latest insertion wins,
since `ainsert` prepends). -/
def alookup {α : Type} (k : String) : List (String × α) → Option α
  | [] => none
  | e :: m => if e.1 == k then some e.2 else alookup k m

/-- Association-list insertion (prepend; together with `alookup` this gives
Go-map overwrite semantics). -/
def ainsert {α : Type} (k : String) (v : α) (m : List (String × α)) : List (String × α) :=
  (k, v) :: m

/-- In-cycle mutable state of `syncIssuesToTududi`: the project index, the
task dedup index, the dry-run mock project id counter, and the number of
real project-create calls already issued (indexing the oracle). -/
structure SyncState where
  projectMap : List (String × Int)
  taskDedupMap : List (String × GoTask)
  mockProjectIDCounter : Int
  nextProjCall : Nat

/-- Dedup key of `part_002`: `fmt.Sprintf("%d|%s", projectID, normalizeName name)`. -/
def dedupKeyFor (projectID : Int) (name : String) : String :=
  toString projectID ++ "|" ++ normalizeName name

/-! ## Engine operations (`part_002`) -/

/-- Repository name, description and archived flag for an issue: taken from
the nested repository when present, else the name is parsed from the last
`/`-segment of `RepositoryURL` and a synthetic description is used
(`isArchived` stays false). -/
def repoInfo (issue : GoIssue) : String × String × Bool :=
  match issue.repo with
  | some r => (r.name, r.description, r.archived)
  | none =>
    let repoName :=
      match issue.repositoryURL with
      | some url => (url.splitOn "/").getLastD ""
      | none => ""
    (repoName, "Imported GitHub Repository: " ++ repoName, false)

/-- Target sink status for an issue: `StatusCompleted` when the issue is
closed, else `StatusNotStarted`. -/
def targetStatusOf (issue : GoIssue) : Int :=
  if issue.state == "closed" then StatusCompleted else StatusNotStarted

/-- Go `createTududiProject`: defaults an empty description, then issues the
`POST /project` call; the returned id comes from the oracle at the given
call index. -/
def createTududiProject (oracle : Nat → Int) (callIdx : Nat)
    (name description status : String) : Int × List Effect :=
  let desc := if description == "" then "Imported GitHub Repository: " ++ name else description
  (oracle callIdx, [Effect.createProjectReq name desc status])

/-- Go `updateTaskStatus`: in dry-run mode only a log line, else the
`PATCH /task/{id}` call. -/
def updateTaskStatus (cfg : Config) (taskID : Int) (status : Int) : List Effect :=
  if cfg.dryRun then [Effect.logDryRunPatchTask taskID status]
  else [Effect.patchTaskReq taskID status]

/-- Go `createTududiTask` of `part_002`: in dry-run mode only a log line,
else the `POST /task` call with note footer, label-inferred priority,
repository and `"github"` tags, and the milestone due date when present. -/
def createTududiTask (cfg : Config) (issue : GoIssue) (projectID : Int)
    (repoName : String) (status : Int) : List Effect :=
  if cfg.dryRun then [Effect.logDryRunCreateTask issue.title status]
  else
    let note := issue.body ++ "\n\n**GitHub Source**: [Issue #" ++ toString issue.number
      ++ "](" ++ issue.htmlURL ++ ")"
    let priority := inferPriority issue.labels
    let tags := [repoName, "github"]
    [Effect.createTaskReq issue.title note status priority projectID tags issue.milestoneDue]

/-- Found-branch of the engine loop (`part_002` lines 234-248): the status
drift comparison against an existing task under the dedup key. -/
def handleExistingTask (cfg : Config) (task : GoTask) (targetStatus : Int) : List Effect :=
  (if cfg.debugMode then [Effect.logDedupMatch task.name] else []) ++
    (if targetStatus == StatusCompleted && task.status != StatusCompleted then
      Effect.logUpdateCompleted task.name :: updateTaskStatus cfg task.id StatusCompleted
    else if targetStatus == StatusNotStarted && task.status == StatusCompleted then
      Effect.logUpdateReopened task.name :: updateTaskStatus cfg task.id StatusNotStarted
    else [])

/-- Project resolution of the engine loop (`part_002` lines 204-229): look
up the normalized repository name; when absent either record a negative
mock id (dry-run) or issue the create call, recording the new id only when
it is nonzero (a zero id makes the caller skip the issue: result `none`). -/
def resolveProject (cfg : Config) (st : SyncState) (repoName repoDescription : String)
    (isArchived : Bool) : SyncState × List Effect × Option Int :=
  let normRepoName := normalizeName repoName
  match alookup normRepoName st.projectMap with
  | some pid => (st, [], some pid)
  | none =>
    let projectStatus := if isArchived then "done" else "planned"
    if cfg.dryRun then
      ({ st with
          projectMap := ainsert normRepoName st.mockProjectIDCounter st.projectMap,
          mockProjectIDCounter := st.mockProjectIDCounter - 1 },
        [Effect.logDryRunCreateProject repoName], some st.mockProjectIDCounter)
    else
      let created := createTududiProject cfg.oracle st.nextProjCall repoName
        repoDescription projectStatus
      let effs := Effect.logCreatingProject repoName :: created.2
      if created.1 == 0 then
        ({ st with nextProjCall := st.nextProjCall + 1 }, effs, none)
      else
        ({ st with
            projectMap := ainsert normRepoName created.1 st.projectMap,
            nextProjCall := st.nextProjCall + 1 }, effs, some created.1)

/-- One iteration of the engine loop of `part_002` over a single issue:
resolve the project (skipping the issue if creation failed), then either
run the drift comparison on the dedup match or create the task and
immediately register it in the in-cycle dedup index. -/
def syncIssueStep (cfg : Config) (st : SyncState) (issue : GoIssue) :
    SyncState × List Effect :=
  let info := repoInfo issue
  let targetStatus := targetStatusOf issue
  match resolveProject cfg st info.1 info.2.1 info.2.2 with
  | (st1, effs1, none) => (st1, effs1)
  | (st1, effs1, some projID) =>
    let dedupKey := dedupKeyFor projID issue.title
    match alookup dedupKey st1.taskDedupMap with
    | some task => (st1, effs1 ++ handleExistingTask cfg task targetStatus)
    | none =>
      ({ st1 with
          taskDedupMap :=
            ainsert dedupKey ⟨0, issue.title, targetStatus, projID, ""⟩ st1.taskDedupMap },
        effs1 ++ ((if cfg.debugMode then [Effect.logNoDedupMatch dedupKey] else []) ++
          createTududiTask cfg issue projID info.1 targetStatus))

/-- Sequential fold of the engine loop over the issue list, accumulating
the effect trace. -/
def runSteps (cfg : Config) (st : SyncState) : List GoIssue → SyncState × List Effect
  | [] => (st, [])
  | issue :: rest =>
    let s := syncIssueStep cfg st issue
    let r := runSteps cfg s.1 rest
    (r.1, s.2 ++ r.2)

/-- Snapshot project index: normalized name to id, built by the prologue of
`syncIssuesToTududi`. -/
def buildProjectMap (projects : List GoProject) : List (String × Int) :=
  projects.foldl (fun m p => ainsert (normalizeName p.name) p.id m) []

/-- Snapshot task dedup index: `"<projectID>|<normalized name>"` to task,
built by the prologue of `syncIssuesToTududi`. -/
def buildTaskDedupMap (tasks : List GoTask) : List (String × GoTask) :=
  tasks.foldl (fun m t => ainsert (dedupKeyFor t.projectID t.name) t m) []

/-- Go `syncIssuesToTududi` of `part_002`, parametrized by the decoded
snapshot (projects, tasks) and the issue list; the mock project id counter
starts at `-1`. -/
def syncIssuesToTududi (cfg : Config) (projects : List GoProject) (tasks : List GoTask)
    (issues : List GoIssue) : SyncState × List Effect :=
  runSteps cfg ⟨buildProjectMap projects, buildTaskDedupMap tasks, -1, 0⟩ issues

/-! ## Effect counting helpers -/

/-- Dedup key a task-create effect would be registered under. -/
def createKeyOf : Effect → Option String
  | .createTaskReq title _ _ _ projectID _ _ => some (dedupKeyFor projectID title)
  | _ => none

/-- Normalized project key of a project-create effect. -/
def projKeyOf : Effect → Option String
  | .createProjectReq name _ _ => some (normalizeName name)
  | _ => none

/-- Number of real task-create calls in a trace whose dedup key is `k`. -/
def countCreatesFor (k : String) (effs : List Effect) : Nat :=
  effs.countP (fun e => createKeyOf e == some k)

/-- Number of real project-create calls in a trace whose normalized project
name is `k`. -/
def countProjCreatesFor (k : String) (effs : List Effect) : Nat :=
  effs.countP (fun e => projKeyOf e == some k)

/-- The `(taskID, status)` pairs of the real status-patch calls of a trace. -/
def patchesOf (effs : List Effect) : List (Int × Int) :=
  effs.filterMap fun e =>
    match e with
    | .patchTaskReq taskID status => some (taskID, status)
    | _ => none

/-- Every status value a trace writes to the sink, through task creation or
a status patch. -/
def writtenStatuses (effs : List Effect) : List Int :=
  effs.filterMap fun e =>
    match e with
    | .createTaskReq _ _ status _ _ _ _ => some status
    | .patchTaskReq _ status => some status
    | _ => none

/-! ## Snapshot loaders (`part_002` `fetchTududiProjects` / `fetchTududiTasks`) -/

/-- Possible body shapes of a `GET /projects` response: object-wrapped
list, bare list, some other JSON object (Go decodes it into the wrapper
struct leaving the slice empty), or malformed JSON. -/
inductive ProjectsWire where
  | wrapped (projects : List GoProject)
  | bare (projects : List GoProject)
  | otherObject
  | malformed

/-- Decoding a projects body into the `ProjectResponse` wrapper struct. -/
def decodeProjectsWrapped : ProjectsWire → Option (List GoProject)
  | .wrapped ps => some ps
  | .otherObject => some []
  | _ => none

/-- Decoding a projects body into a bare `[]Project` slice. -/
def decodeProjectsBare : ProjectsWire → Option (List GoProject)
  | .bare ps => some ps
  | _ => none

/-- Go `fetchTududiProjects` of `part_002`: try the object-wrapped decode
and accept a nonempty result, else fall back to the bare-array decode,
returning the empty list if that also fails (each call argument is `none`
on a transport or HTTP error). -/
def fetchTududiProjects (call1 call2 : Option ProjectsWire) : List GoProject :=
  match call1.bind decodeProjectsWrapped with
  | some ps => if ps.length > 0 then ps else (call2.bind decodeProjectsBare).getD []
  | none => (call2.bind decodeProjectsBare).getD []

/-- Possible body shapes of a `GET /tasks` response. -/
inductive TasksWire where
  | wrapped (tasks : List GoTask)
  | bare (tasks : List GoTask)
  | otherObject
  | malformed

/-- Decoding a tasks body into the `TaskResponse` wrapper struct. -/
def decodeTasksWrapped : TasksWire → Option (List GoTask)
  | .wrapped ts => some ts
  | .otherObject => some []
  | _ => none

/-- Decoding a tasks body into a bare `[]Task` slice. -/
def decodeTasksBare : TasksWire → Option (List GoTask)
  | .bare ts => some ts
  | _ => none

/-- Second and third attempts of `fetchTududiTasks`: the bare-array decode
of `/tasks?type=all` (accepted when nonempty), then the wrapper decode of
`/tasks` without filters, else the empty list. -/
def fetchTasksFallback (call2 call3 : Option TasksWire) : List GoTask :=
  match call2.bind decodeTasksBare with
  | some ts => if ts.length > 0 then ts else (call3.bind decodeTasksWrapped).getD []
  | none => (call3.bind decodeTasksWrapped).getD []

/-- Go `fetchTududiTasks` of `part_002`: wrapper decode of `/tasks?type=all`
(accepted when nonempty), then the two fallback attempts. -/
def fetchTududiTasks (call1 call2 call3 : Option TasksWire) : List GoTask :=
  match call1.bind decodeTasksWrapped with
  | some ts => if ts.length > 0 then ts else fetchTasksFallback call2 call3
  | none => fetchTasksFallback call2 call3

/-! ## String-status drift comparison (second `main.go` variant) -/

namespace StrSync

/-- Existing sink task as the second `main.go` variant sees it: `Status` is
`interface{}` and the comparison works on `fmt.Sprintf("%v", task.Status)`,
modelled here by storing that printed string directly. -/
structure Task where
  id : Int
  uid : String
  name : String
  status : String
deriving DecidableEq

/-- Target status string: `"completed"` when the issue is closed, else
`"pending"`. -/
def targetStatusOf (state : String) : String :=
  if state == "closed" then "completed" else "pending"

/-- Done-equivalence test of the second `main.go` variant: the printed sink
status is `"completed"`, `"2"`, or `"archived"`. -/
def tududiIsDone (tududiStatus : String) : Bool :=
  tududiStatus == "completed" || tududiStatus == "2" || tududiStatus == "archived"

/-- Drift decision of the second `main.go` variant: the `(taskID, status)`
patch calls issued for an existing task given the target status. -/
def driftPatches (task : Task) (targetStatus : String) : List (Int × String) :=
  let ghIsClosed := targetStatus == "completed"
  if ghIsClosed && !tududiIsDone task.status then [(task.id, "completed")]
  else if !ghIsClosed && tududiIsDone task.status then [(task.id, "pending")]
  else []

end StrSync

/-! ## Cycle driver (`runSync` of `part_002`) -/

/-- Owned repository record: the fields of `github.Repository` used by the
listing phase. -/
structure OwnedRepo where
  ownerLogin : String
  name : String
deriving DecidableEq

/-- Results of the source-tracker reads of one cycle; `none` models a
failed call (auth failure, rate limit, network error). -/
structure GhEnv where
  user : Option String
  searchResult : Option (List GoIssue)
  reposResult : Option (List OwnedRepo)
  repoIssues : String → Option (List GoIssue)

/-- Search-result collection of `runSync`: de-duplicate by issue id and cap
at 50 collected issues. -/
def searchCollect (processed : List Int) (count : Nat) :
    List GoIssue → List Int × List GoIssue
  | [] => (processed, [])
  | issue :: rest =>
    if count ≥ 50 then (processed, [])
    else if processed.contains issue.id then searchCollect processed count rest
    else
      let r := searchCollect (issue.id :: processed) (count + 1) rest
      (r.1, issue :: r.2)

/-- Per-repository issue collection of `runSync`: skip pull requests and
already-processed ids. -/
def repoIssuesCollect (processed : List Int) : List GoIssue → List Int × List GoIssue
  | [] => (processed, [])
  | issue :: rest =>
    if issue.isPR then repoIssuesCollect processed rest
    else if processed.contains issue.id then repoIssuesCollect processed rest
    else
      let r := repoIssuesCollect (issue.id :: processed) rest
      (r.1, issue :: r.2)

/-- Owned-repository phase of `runSync`: for each repository owned by the
current user, list its issues (a failed listing is logged and skipped) and
collect the new ones. -/
def reposCollect (repoIssues : String → Option (List GoIssue)) (myLogin : String)
    (processed : List Int) : List OwnedRepo → List Int × List GoIssue × List Effect
  | [] => (processed, [], [])
  | r :: rest =>
    if r.ownerLogin == myLogin then
      match repoIssues r.name with
      | none =>
        let tail := reposCollect repoIssues myLogin processed rest
        (tail.1, tail.2.1, Effect.logRepoIssuesError r.name :: tail.2.2)
      | some ris =>
        let c := repoIssuesCollect processed ris
        let tail := reposCollect repoIssues myLogin c.1 rest
        (tail.1, c.2 ++ tail.2.1, tail.2.2)
    else reposCollect repoIssues myLogin processed rest

/-- Go `runSync` of `part_002`: a failed current-user fetch aborts the
cycle after a log line; a failed search or repository listing is logged and
the cycle continues with the issues gathered from the other source; the
collected issues are handed to `syncIssuesToTududi` with the given decoded
snapshot. -/
def runSync (cfg : Config) (env : GhEnv) (projects : List GoProject)
    (tasks : List GoTask) : List Effect :=
  match env.user with
  | none => [Effect.logUserError]
  | some myLogin =>
    let searchPart : List Int × List GoIssue × List Effect :=
      match env.searchResult with
      | none => ([], [], [Effect.logSearchError])
      | some found =>
        let c := searchCollect [] 0 found
        (c.1, c.2, [])
    let repoPart : List GoIssue × List Effect :=
      match env.reposResult with
      | none => ([], [Effect.logReposError])
      | some rs =>
        let c := reposCollect env.repoIssues myLogin searchPart.1 rs
        (c.2.1, c.2.2)
    searchPart.2.2 ++ repoPart.2 ++
      (syncIssuesToTududi cfg projects tasks (searchPart.2.1 ++ repoPart.1)).2

/-! ## Concrete fixtures for witnesses and counterexamples -/

/-- Real-mode configuration whose project-create oracle always returns 1. -/
def cfgReal : Config := ⟨false, false, fun _ => 1⟩

/-- Real-mode configuration whose project-create oracle always returns 0,
modelling a sink that rejects every project-create call. -/
def cfgZeroOracle : Config := ⟨false, false, fun _ => 0⟩

/-- Dry-run configuration. -/
def cfgDry : Config := ⟨true, false, fun _ => 1⟩

/-- Sample repository. -/
def repoAlpha : GoRepo := ⟨"alpha", "demo repository", false⟩

/-- Sample open issue number 1 in `repoAlpha`. -/
def issueOne : GoIssue :=
  ⟨1, 1, "First bug", "body one", "https://example.test/1", "open", [], false,
    some repoAlpha, none, none⟩

/-- Sample open issue number 2 in `repoAlpha`. -/
def issueTwo : GoIssue :=
  ⟨2, 2, "Second bug", "body two", "https://example.test/2", "open", [], false,
    some repoAlpha, none, none⟩

/-- Sample closed issue number 3 in `repoAlpha`. -/
def issueClosed : GoIssue :=
  ⟨3, 3, "Third bug", "body three", "https://example.test/3", "closed", [], false,
    some repoAlpha, none, none⟩

/-- In-cycle state whose project index already maps `"alpha"` to id 7 and
whose task index is empty. -/
def stWitness : SyncState := ⟨[("alpha", 7)], [], -1, 0⟩

/-- Source environment whose issue search fails while the current-user
fetch and the repository listing succeed. -/
def envSearchFails : GhEnv :=
  ⟨some "me", none, some [⟨"me", "alpha"⟩], fun _ => some [issueOne]⟩

/-- Sample completed sink task for issue "First bug" in project 7. -/
def taskDone : GoTask := ⟨5, "First bug", 2, 7, ""⟩

/-- Sample not-started sink task for issue "First bug" in project 7. -/
def taskPending : GoTask := ⟨5, "First bug", 0, 7, ""⟩

/-- In-cycle state with project "alpha" mapped to id 7 and `taskDone`
registered under its dedup key. -/
def stFound : SyncState := ⟨[("alpha", 7)], [("7|first bug", taskDone)], -1, 0⟩

/-- Empty in-cycle state. -/
def stEmpty : SyncState := ⟨[], [], -1, 0⟩

/-- Sample archived repository. -/
def repoArch : GoRepo := ⟨"beta", "", true⟩

/-- Sample open issue in the archived repository. -/
def issueArch : GoIssue :=
  ⟨4, 4, "Arch bug", "body four", "https://example.test/4", "open", [], false,
    some repoArch, none, none⟩

/-- Source environment whose current-user fetch fails. -/
def envUserFails : GhEnv := ⟨none, some [], some [], fun _ => none⟩

/-- Source environment whose repository listing fails while the
current-user fetch and the issue search succeed. -/
def envReposFails : GhEnv := ⟨some "me", some [issueOne], none, fun _ => none⟩

/-- Source environment whose issue search and repository listing both fail
while the current-user fetch succeeds. -/
def envBothFail : GhEnv := ⟨some "me", none, none, fun _ => none⟩

/-! ## General helper lemmas -/

theorem alookup_ainsert {α : Type} (k k2 : String) (v : α) (m : List (String × α)) :
    alookup k (ainsert k2 v m) = if k2 == k then some v else alookup k m := by
  simp [alookup, ainsert]

theorem dropWhile_dropWhile {α : Type} (p : α → Bool) (l : List α) :
    (l.dropWhile p).dropWhile p = l.dropWhile p := by
  induction l with
  | nil => rfl
  | cons a t ih =>
    by_cases h : p a = true
    · rw [List.dropWhile_cons, if_pos h]; exact ih
    · rw [List.dropWhile_cons, if_neg h, List.dropWhile_cons, if_neg h]

theorem dropWhile_eq_nil_forall {α : Type} (p : α → Bool) (l : List α)
    (h : l.dropWhile p = []) : ∀ c ∈ l, p c = true := by
  induction l with
  | nil => intro c hc; cases hc
  | cons a t ih =>
    rw [List.dropWhile_cons] at h
    by_cases hp : p a = true
    · rw [if_pos hp] at h
      intro c hc
      rcases List.mem_cons.mp hc with rfl | hc
      · exact hp
      · exact ih h c hc
    · rw [if_neg hp] at h; cases h

theorem dropWhile_append_of_forall {α : Type} (p : α → Bool) (w l : List α)
    (hw : ∀ c ∈ w, p c = true) : (w ++ l).dropWhile p = l.dropWhile p := by
  induction w with
  | nil => rfl
  | cons a t ih =>
    rw [List.cons_append, List.dropWhile_cons, if_pos (hw a (List.mem_cons_self a t))]
    exact ih fun c hc => hw c (List.mem_cons_of_mem a hc)

theorem dropWhile_cons_self {α : Type} (p : α → Bool) (a : α) (t : List α)
    (h : List.dropWhile p (a :: t) = a :: t) : p a = false := by
  rw [List.dropWhile_cons] at h
  by_cases hp : p a = true
  · rw [if_pos hp] at h
    have hlen := List.Sublist.length_le (List.dropWhile_sublist (l := t) p)
    rw [h] at hlen
    simp at hlen
  · simp [hp]

theorem dropWhile_append_cons {α : Type} (p : α → Bool) (m z : List α) (a : α) (t : List α)
    (h : m.dropWhile p = a :: t) : (m ++ z).dropWhile p = a :: (t ++ z) := by
  induction m with
  | nil => cases h
  | cons b bs ih =>
    rw [List.dropWhile_cons] at h
    rw [List.cons_append, List.dropWhile_cons]
    by_cases hp : p b = true
    · rw [if_pos hp] at h
      rw [if_pos hp]
      exact ih h
    · rw [if_neg hp] at h
      rw [if_neg hp]
      injection h with h1 h2
      rw [h1, h2]

theorem map_eq_self_of_fixed {α : Type} (f : α → α) (l : List α)
    (h : ∀ c ∈ l, f c = c) : l.map f = l := by
  induction l with
  | nil => rfl
  | cons a t ih =>
    rw [List.map_cons, h a (List.mem_cons_self a t), ih fun c hc => h c (List.mem_cons_of_mem a hc)]

/-! ## Normalization lemmas -/

theorem char_ofNat_toNat (n : Nat) (h : n < 55296) : (Char.ofNat n).toNat = n := by
  unfold Char.ofNat
  have hv : n.isValidChar := Or.inl h
  rw [dif_pos hv]
  unfold Char.ofNatAux
  simp [Char.toNat, UInt32.toNat, BitVec.toNat_ofNatLt]

theorem toLower_toLower (c : Char) : Char.toLower (Char.toLower c) = Char.toLower c := by
  by_cases h : c.toNat ≥ 65 ∧ c.toNat ≤ 90
  · have h1 : Char.toLower c = Char.ofNat (c.toNat + 32) := by
      unfold Char.toLower
      rw [if_pos h]
    have h2 : (Char.ofNat (c.toNat + 32)).toNat = c.toNat + 32 :=
      char_ofNat_toNat _ (by omega)
    rw [h1]
    conv_lhs => unfold Char.toLower
    rw [h2, if_neg (by omega)]
  · have h1 : Char.toLower c = c := by
      unfold Char.toLower
      rw [if_neg h]
    rw [h1, h1]

theorem canonChar_eq (c : Char) :
    canonChar c = if Char.toLower c = '-' then ' '
      else if Char.toLower c = '_' then ' ' else Char.toLower c := by
  unfold canonChar replChar
  by_cases h1 : Char.toLower c = '-'
  · simp [h1]
  · by_cases h2 : Char.toLower c = '_' <;> simp [h1, h2]

theorem canonChar_idem (c : Char) : canonChar (canonChar c) = canonChar c := by
  rw [canonChar_eq c]
  by_cases h1 : Char.toLower c = '-'
  · rw [if_pos h1]; decide
  · by_cases h2 : Char.toLower c = '_'
    · rw [if_neg h1, if_pos h2]; decide
    · rw [if_neg h1, if_neg h2, canonChar_eq, toLower_toLower, if_neg h1, if_neg h2]

theorem ltrim_idem (l : List Char) : ltrimChars (ltrimChars l) = ltrimChars l :=
  dropWhile_dropWhile isGoSpace l

theorem rtrim_idem (l : List Char) : rtrimChars (rtrimChars l) = rtrimChars l := by
  unfold rtrimChars
  rw [List.reverse_reverse, dropWhile_dropWhile]

theorem rtrim_prefix (l : List Char) : rtrimChars l <+: l := by
  apply List.reverse_suffix.mp
  rw [rtrimChars, List.reverse_reverse]
  exact List.dropWhile_suffix isGoSpace

theorem ltrim_rtrim_of_ltrimmed (l : List Char) (h : ltrimChars l = l) :
    ltrimChars (rtrimChars l) = rtrimChars l := by
  rcases hr : rtrimChars l with _ | ⟨a, t⟩
  · rfl
  · have hpre : rtrimChars l <+: l := rtrim_prefix l
    rw [hr] at hpre
    obtain ⟨r, hrr⟩ := hpre
    have hl : l = a :: (t ++ r) := by rw [← hrr]; rfl
    have hfa : isGoSpace a = false := by
      apply dropWhile_cons_self isGoSpace a (t ++ r)
      rw [hl] at h
      exact h
    unfold ltrimChars
    rw [List.dropWhile_cons, if_neg (by simp [hfa])]

theorem trim_idem (l : List Char) : trimChars (trimChars l) = trimChars l := by
  unfold trimChars
  rw [ltrim_rtrim_of_ltrimmed _ (ltrim_idem l), rtrim_idem]

theorem normalizeChars_canon (l : List Char) :
    normalizeChars l = trimChars (l.map canonChar) := by
  unfold normalizeChars
  rw [List.map_map, List.map_map]
  rfl

theorem mem_of_mem_trimChars (c : Char) (l : List Char) (h : c ∈ trimChars l) : c ∈ l := by
  unfold trimChars rtrimChars ltrimChars at h
  have h1 := List.mem_reverse.mp h
  have h2 := List.Sublist.mem h1 (List.dropWhile_sublist isGoSpace)
  have h3 := List.mem_reverse.mp h2
  exact List.Sublist.mem h3 (List.dropWhile_sublist isGoSpace)

theorem canon_map_normalizeChars (l : List Char) :
    (normalizeChars l).map canonChar = normalizeChars l := by
  rw [normalizeChars_canon]
  apply map_eq_self_of_fixed
  intro c hc
  obtain ⟨d, _, rfl⟩ := List.mem_map.mp (mem_of_mem_trimChars _ _ hc)
  exact canonChar_idem d

theorem normalizeChars_idem (l : List Char) :
    normalizeChars (normalizeChars l) = normalizeChars l := by
  rw [normalizeChars_canon (normalizeChars l), canon_map_normalizeChars l,
    normalizeChars_canon l, trim_idem]

theorem rtrim_append_spaces (l w : List Char) (hw : ∀ c ∈ w, isGoSpace c = true) :
    rtrimChars (l ++ w) = rtrimChars l := by
  unfold rtrimChars
  rw [List.reverse_append, dropWhile_append_of_forall _ _ _
    fun c hc => hw c (List.mem_reverse.mp hc)]

theorem trim_surround (w m w2 : List Char) (hw : ∀ c ∈ w, isGoSpace c = true)
    (hw2 : ∀ c ∈ w2, isGoSpace c = true) :
    trimChars (w ++ m ++ w2) = trimChars m := by
  unfold trimChars ltrimChars
  rw [List.append_assoc, dropWhile_append_of_forall _ _ _ hw]
  rcases hm : List.dropWhile isGoSpace m with _ | ⟨a, t⟩
  · have hall := dropWhile_eq_nil_forall _ _ hm
    have hmw : List.dropWhile isGoSpace (m ++ w2) = List.dropWhile isGoSpace w2 :=
      dropWhile_append_of_forall _ _ _ hall
    have hw2nil : List.dropWhile isGoSpace w2 = [] := by
      rw [← List.append_nil w2, dropWhile_append_of_forall _ _ _ hw2]
      rfl
    rw [hmw, hw2nil]
  · rw [dropWhile_append_cons _ _ _ _ _ hm]
    rw [show a :: (t ++ w2) = (a :: t) ++ w2 from rfl]
    exact rtrim_append_spaces _ _ hw2

theorem canonChar_of_space (c : Char) (h : isGoSpace c = true) : canonChar c = c := by
  have : c = ' ' ∨ c = '\t' ∨ c = '\n' ∨ c = '\x0b' ∨ c = '\x0c' ∨ c = '\r' := by
    simp [isGoSpace] at h
    tauto
  rcases this with rfl | rfl | rfl | rfl | rfl | rfl <;> decide

theorem normalizeChars_surround (w m w2 : List Char) (hw : ∀ c ∈ w, isGoSpace c = true)
    (hw2 : ∀ c ∈ w2, isGoSpace c = true) :
    normalizeChars (w ++ m ++ w2) = normalizeChars m := by
  rw [normalizeChars_canon, normalizeChars_canon, List.map_append, List.map_append,
    map_eq_self_of_fixed canonChar w (fun c hc => canonChar_of_space c (hw c hc)),
    map_eq_self_of_fixed canonChar w2 (fun c hc => canonChar_of_space c (hw2 c hc))]
  exact trim_surround _ _ _ hw hw2

/-! ## Claim C4 -/

/-- Claim C4: `normalizeName` is a deterministic, total, idempotent function
on strings (`normalizeName (normalizeName x) = normalizeName x` for every
string); two names whose characters agree after canonicalization (case
folding plus mapping the separators `-` and `_` to a space) normalize to
the same key; surrounding whitespace never changes the key; and
`normalizeName "My-Repo_Name" = normalizeName "my repo name" = "my repo name"`. -/
theorem claim_C4 :
    (∀ x : String, normalizeName (normalizeName x) = normalizeName x)
    ∧ (∀ x y : String, x.data.map canonChar = y.data.map canonChar →
        normalizeName x = normalizeName y)
    ∧ (∀ w m w2 : String, (∀ c ∈ w.data, isGoSpace c = true) →
        (∀ c ∈ w2.data, isGoSpace c = true) →
        normalizeName (w ++ m ++ w2) = normalizeName m)
    ∧ normalizeName "My-Repo_Name" = "my repo name"
    ∧ normalizeName "my repo name" = "my repo name" := by
  refine ⟨?_, ?_, ?_, by decide, by decide⟩
  · intro x
    unfold normalizeName
    exact congrArg String.mk (normalizeChars_idem x.data)
  · intro x y h
    unfold normalizeName
    rw [normalizeChars_canon, normalizeChars_canon, h]
  · intro w m w2 hw hw2
    unfold normalizeName
    have hdata : (w ++ m ++ w2).data = w.data ++ m.data ++ w2.data := by
      rw [String.data_append, String.data_append]
    rw [hdata, normalizeChars_surround _ _ _ hw hw2]

/-- Witness for claim C4, discharging its hypotheses at concrete inputs. -/
theorem claim_C4_witness :
    normalizeName (normalizeName "GH-Sync") = normalizeName "GH-Sync"
    ∧ normalizeName "My-Repo_Name" = normalizeName "my repo name"
    ∧ normalizeName (" " ++ "alpha" ++ " ") = normalizeName "alpha" :=
  ⟨claim_C4.1 "GH-Sync",
    claim_C4.2.1 "My-Repo_Name" "my repo name" (by decide),
    claim_C4.2.2.1 " " "alpha" " " (by decide) (by decide)⟩

/-! ## Claim C9 -/

theorem inferPriority_foldl (labels : List String) (acc : String) :
    labels.foldl (fun priority label => if labelTriggersHigh label then "high" else priority)
      acc = if labels.any labelTriggersHigh then "high" else acc := by
  induction labels generalizing acc with
  | nil => simp
  | cons a t ih =>
    by_cases h : labelTriggersHigh a = true
    · simp [List.foldl_cons, List.any_cons, h, ih]
    · simp [List.foldl_cons, List.any_cons, h, ih]

theorem inferPriority_eq (labels : List String) :
    inferPriority labels = if labels.any labelTriggersHigh then "high" else "medium" :=
  inferPriority_foldl labels "medium"

theorem any_of_perm (l1 l2 : List String) (h : l1.Perm l2) :
    l1.any labelTriggersHigh = l2.any labelTriggersHigh := by
  cases h1 : l1.any labelTriggersHigh
  · cases h2 : l2.any labelTriggersHigh
    · rfl
    · obtain ⟨x, hx, hpx⟩ := List.any_eq_true.mp h2
      rw [List.any_eq_false] at h1
      exact absurd hpx (by simpa using h1 x (h.mem_iff.mpr hx))
  · obtain ⟨x, hx, hpx⟩ := List.any_eq_true.mp h1
    exact (List.any_eq_true.mpr ⟨x, h.mem_iff.mp hx, hpx⟩).symm

/-- Claim C9: the inferred priority is `"high"` exactly when some label,
lower-cased, contains `"urgent"` or `"high"` as a substring, and
`"medium"` otherwise; the scan is order-insensitive (permutation
invariant); `["Urgent-Fix"]` yields high, `["bug"]` yields medium. -/
theorem claim_C9 :
    (∀ labels : List String,
      inferPriority labels = if labels.any labelTriggersHigh then "high" else "medium")
    ∧ (∀ labels : List String,
        inferPriority labels = "high" ↔ ∃ label ∈ labels, labelTriggersHigh label = true)
    ∧ (∀ l1 l2 : List String, l1.Perm l2 → inferPriority l1 = inferPriority l2)
    ∧ inferPriority ["Urgent-Fix"] = "high"
    ∧ inferPriority ["bug"] = "medium" := by
  refine ⟨inferPriority_eq, ?_, ?_, by decide, by decide⟩
  · intro labels
    rw [inferPriority_eq]
    by_cases h : labels.any labelTriggersHigh = true
    · rw [if_pos h]
      exact ⟨fun _ => List.any_eq_true.mp h, fun _ => rfl⟩
    · rw [if_neg h]
      constructor
      · intro hc; exact absurd hc (by decide)
      · intro ⟨x, hx, hpx⟩; exact absurd (List.any_eq_true.mpr ⟨x, hx, hpx⟩) h
  · intro l1 l2 hperm
    rw [inferPriority_eq, inferPriority_eq, any_of_perm l1 l2 hperm]

/-- Witness for claim C9, discharging its hypotheses at concrete inputs. -/
theorem claim_C9_witness :
    (inferPriority ["bug", "Urgent-Fix"] = "high" ↔
      ∃ label ∈ ["bug", "Urgent-Fix"], labelTriggersHigh label = true)
    ∧ inferPriority ["a", "b"] = inferPriority ["b", "a"] :=
  ⟨claim_C9.2.1 ["bug", "Urgent-Fix"],
    claim_C9.2.2.1 ["a", "b"] ["b", "a"] (List.Perm.swap "b" "a" [])⟩

/-! ## Claim C7 -/

/-- Claim C7: the snapshot loaders fail soft and accept both wire shapes:
any transport or decode failure (failed calls, malformed bodies, or an
unrelated JSON object) yields the empty collection rather than an error,
and both the object-wrapped and the bare-array shape of the same logical
resource are decoded to their payload. -/
theorem claim_C7 :
    (∀ ps : List GoProject,
      fetchTududiProjects (some (ProjectsWire.wrapped ps)) (some (ProjectsWire.wrapped ps)) = ps)
    ∧ (∀ ps : List GoProject,
      fetchTududiProjects (some (ProjectsWire.bare ps)) (some (ProjectsWire.bare ps)) = ps)
    ∧ fetchTududiProjects none none = []
    ∧ fetchTududiProjects (some ProjectsWire.malformed) (some ProjectsWire.malformed) = []
    ∧ fetchTududiProjects (some ProjectsWire.otherObject) (some ProjectsWire.otherObject) = []
    ∧ (∀ ts : List GoTask,
      fetchTududiTasks (some (TasksWire.wrapped ts)) (some (TasksWire.wrapped ts))
        (some (TasksWire.wrapped ts)) = ts)
    ∧ (∀ ts : List GoTask,
      fetchTududiTasks (some (TasksWire.bare ts)) (some (TasksWire.bare ts))
        (some (TasksWire.bare ts)) = ts)
    ∧ fetchTududiTasks none none none = []
    ∧ fetchTududiTasks (some TasksWire.malformed) (some TasksWire.malformed)
        (some TasksWire.malformed) = []
    ∧ fetchTududiTasks (some TasksWire.otherObject) (some TasksWire.otherObject)
        (some TasksWire.otherObject) = [] := by
  refine ⟨?_, ?_, rfl, rfl, rfl, ?_, ?_, rfl, rfl, rfl⟩
  · intro ps
    cases ps <;>
      simp [fetchTududiProjects, decodeProjectsWrapped, decodeProjectsBare, Option.bind]
  · intro ps
    cases ps <;>
      simp [fetchTududiProjects, decodeProjectsWrapped, decodeProjectsBare, Option.bind]
  · intro ts
    cases ts <;>
      simp [fetchTududiTasks, fetchTasksFallback, decodeTasksWrapped, decodeTasksBare,
        Option.bind]
  · intro ts
    cases ts <;>
      simp [fetchTududiTasks, fetchTasksFallback, decodeTasksWrapped, decodeTasksBare,
        Option.bind]

/-! ## Engine lemmas: project resolution -/

theorem resolve_found (cfg : Config) (st : SyncState) (n d : String) (a : Bool) (pid : Int)
    (h : alookup (normalizeName n) st.projectMap = some pid) :
    resolveProject cfg st n d a = (st, [], some pid) := by
  unfold resolveProject
  dsimp only
  rw [h]

theorem resolve_absent_dry (cfg : Config) (st : SyncState) (n d : String) (a : Bool)
    (h : alookup (normalizeName n) st.projectMap = none) (hdry : cfg.dryRun = true) :
    resolveProject cfg st n d a =
      ({ st with
          projectMap := ainsert (normalizeName n) st.mockProjectIDCounter st.projectMap,
          mockProjectIDCounter := st.mockProjectIDCounter - 1 },
        [Effect.logDryRunCreateProject n], some st.mockProjectIDCounter) := by
  unfold resolveProject
  dsimp only
  rw [h]
  simp [hdry]

theorem resolve_absent_real_ok (cfg : Config) (st : SyncState) (n d : String) (a : Bool)
    (h : alookup (normalizeName n) st.projectMap = none) (hdry : cfg.dryRun = false)
    (hnz : cfg.oracle st.nextProjCall ≠ 0) :
    resolveProject cfg st n d a =
      ({ st with
          projectMap := ainsert (normalizeName n) (cfg.oracle st.nextProjCall) st.projectMap,
          nextProjCall := st.nextProjCall + 1 },
        [Effect.logCreatingProject n,
          Effect.createProjectReq n
            (if d == "" then "Imported GitHub Repository: " ++ n else d)
            (if a then "done" else "planned")],
        some (cfg.oracle st.nextProjCall)) := by
  unfold resolveProject createTududiProject
  dsimp only
  rw [h]
  simp [hdry, hnz]

theorem resolve_absent_real_fail (cfg : Config) (st : SyncState) (n d : String) (a : Bool)
    (h : alookup (normalizeName n) st.projectMap = none) (hdry : cfg.dryRun = false)
    (hz : cfg.oracle st.nextProjCall = 0) :
    resolveProject cfg st n d a =
      ({ st with nextProjCall := st.nextProjCall + 1 },
        [Effect.logCreatingProject n,
          Effect.createProjectReq n
            (if d == "" then "Imported GitHub Repository: " ++ n else d)
            (if a then "done" else "planned")],
        none) := by
  unfold resolveProject createTududiProject
  dsimp only
  rw [h]
  simp [hdry, hz]

theorem resolve_taskMap (cfg : Config) (st : SyncState) (n d : String) (a : Bool) :
    (resolveProject cfg st n d a).1.taskDedupMap = st.taskDedupMap := by
  cases halo : alookup (normalizeName n) st.projectMap with
  | some pid => rw [resolve_found cfg st n d a pid halo]
  | none =>
    cases hdry : cfg.dryRun with
    | true => rw [resolve_absent_dry cfg st n d a halo hdry]
    | false =>
      by_cases hz : cfg.oracle st.nextProjCall = 0
      · rw [resolve_absent_real_fail cfg st n d a halo hdry hz]
      · rw [resolve_absent_real_ok cfg st n d a halo hdry hz]

theorem resolve_counts (cfg : Config) (st : SyncState) (n d : String) (a : Bool) (k : String) :
    countCreatesFor k (resolveProject cfg st n d a).2.1 = 0
    ∧ patchesOf (resolveProject cfg st n d a).2.1 = []
    ∧ writtenStatuses (resolveProject cfg st n d a).2.1 = [] := by
  cases halo : alookup (normalizeName n) st.projectMap with
  | some pid =>
    rw [resolve_found cfg st n d a pid halo]
    exact ⟨rfl, rfl, rfl⟩
  | none =>
    cases hdry : cfg.dryRun with
    | true =>
      rw [resolve_absent_dry cfg st n d a halo hdry]
      exact ⟨rfl, rfl, rfl⟩
    | false =>
      by_cases hz : cfg.oracle st.nextProjCall = 0
      · rw [resolve_absent_real_fail cfg st n d a halo hdry hz]
        refine ⟨?_, rfl, rfl⟩
        simp [countCreatesFor, createKeyOf]
      · rw [resolve_absent_real_ok cfg st n d a halo hdry hz]
        refine ⟨?_, rfl, rfl⟩
        simp [countCreatesFor, createKeyOf]

theorem resolve_projectMap_mono (cfg : Config) (st : SyncState) (n d : String) (a : Bool)
    (k : String) (v : Int) (h : alookup k st.projectMap = some v) :
    alookup k (resolveProject cfg st n d a).1.projectMap = some v := by
  cases halo : alookup (normalizeName n) st.projectMap with
  | some pid => rw [resolve_found cfg st n d a pid halo]; exact h
  | none =>
    have hne : (normalizeName n == k) = false := by
      by_cases hk : normalizeName n = k
      · rw [hk] at halo; rw [halo] at h; cases h
      · simp [hk]
    cases hdry : cfg.dryRun with
    | true =>
      rw [resolve_absent_dry cfg st n d a halo hdry]
      show alookup k (ainsert (normalizeName n) st.mockProjectIDCounter st.projectMap) = some v
      rw [alookup_ainsert, hne]
      exact h
    | false =>
      by_cases hz : cfg.oracle st.nextProjCall = 0
      · rw [resolve_absent_real_fail cfg st n d a halo hdry hz]; exact h
      · rw [resolve_absent_real_ok cfg st n d a halo hdry hz]
        show alookup k (ainsert (normalizeName n) (cfg.oracle st.nextProjCall) st.projectMap)
          = some v
        rw [alookup_ainsert, hne]
        exact h

/-! ## Engine lemmas: per-step facts -/

theorem syncIssueStep_eq (cfg : Config) (st : SyncState) (issue : GoIssue)
    (st1 : SyncState) (effs1 : List Effect) (p : Option Int)
    (heq : resolveProject cfg st (repoInfo issue).1 (repoInfo issue).2.1 (repoInfo issue).2.2
      = (st1, effs1, p)) :
    syncIssueStep cfg st issue =
      match p with
      | none => (st1, effs1)
      | some projID =>
        match alookup (dedupKeyFor projID issue.title) st1.taskDedupMap with
        | some task => (st1, effs1 ++ handleExistingTask cfg task (targetStatusOf issue))
        | none =>
          ({ st1 with
              taskDedupMap := ainsert (dedupKeyFor projID issue.title)
                ⟨0, issue.title, targetStatusOf issue, projID, ""⟩ st1.taskDedupMap },
            effs1 ++
              ((if cfg.debugMode then [Effect.logNoDedupMatch (dedupKeyFor projID issue.title)]
                else []) ++
                createTududiTask cfg issue projID (repoInfo issue).1 (targetStatusOf issue))) := by
  unfold syncIssueStep
  dsimp only
  conv_lhs => rw [heq]
  cases p <;> rfl

theorem countCreatesFor_append (k : String) (a b : List Effect) :
    countCreatesFor k (a ++ b) = countCreatesFor k a + countCreatesFor k b :=
  List.countP_append _ _ _

theorem countProjCreatesFor_append (k : String) (a b : List Effect) :
    countProjCreatesFor k (a ++ b) = countProjCreatesFor k a + countProjCreatesFor k b :=
  List.countP_append _ _ _

theorem patchesOf_append (a b : List Effect) :
    patchesOf (a ++ b) = patchesOf a ++ patchesOf b :=
  List.filterMap_append _ _ _

theorem writtenStatuses_append (a b : List Effect) :
    writtenStatuses (a ++ b) = writtenStatuses a ++ writtenStatuses b :=
  List.filterMap_append _ _ _

theorem handle_counts (cfg : Config) (task : GoTask) (tgt : Int) (k : String) :
    countCreatesFor k (handleExistingTask cfg task tgt) = 0
    ∧ countProjCreatesFor k (handleExistingTask cfg task tgt) = 0 := by
  unfold handleExistingTask updateTaskStatus
  split_ifs <;>
    simp [countCreatesFor, countProjCreatesFor, createKeyOf, projKeyOf]

theorem createTask_count (cfg : Config) (issue : GoIssue) (pid : Int) (rn : String)
    (tgt : Int) (k : String) :
    countCreatesFor k (createTududiTask cfg issue pid rn tgt)
      = if cfg.dryRun = false ∧ dedupKeyFor pid issue.title = k then 1 else 0 := by
  unfold createTududiTask
  cases hdry : cfg.dryRun with
  | true => simp [hdry, countCreatesFor, createKeyOf]
  | false =>
    by_cases hk : dedupKeyFor pid issue.title = k
    · simp [hdry, hk, countCreatesFor, createKeyOf]
    · simp [hdry, hk, countCreatesFor, createKeyOf]

theorem createTask_projCount (cfg : Config) (issue : GoIssue) (pid : Int) (rn : String)
    (tgt : Int) (k : String) :
    countProjCreatesFor k (createTududiTask cfg issue pid rn tgt) = 0 := by
  unfold createTududiTask
  cases hdry : cfg.dryRun with
  | true => simp [hdry, countProjCreatesFor, projKeyOf]
  | false => simp [hdry, countProjCreatesFor, projKeyOf]

theorem step_taskMap_mono (cfg : Config) (st : SyncState) (issue : GoIssue) (k : String)
    (h : (alookup k st.taskDedupMap).isSome = true) :
    (alookup k (syncIssueStep cfg st issue).1.taskDedupMap).isSome = true := by
  rcases heq : resolveProject cfg st (repoInfo issue).1 (repoInfo issue).2.1 (repoInfo issue).2.2
    with ⟨st1, effs1, p⟩
  have htm : st1.taskDedupMap = st.taskDedupMap := by
    have h0 := resolve_taskMap cfg st (repoInfo issue).1 (repoInfo issue).2.1 (repoInfo issue).2.2
    rw [heq] at h0
    exact h0
  rw [syncIssueStep_eq cfg st issue st1 effs1 p heq]
  cases p with
  | none =>
    dsimp only
    rw [htm]
    exact h
  | some projID =>
    cases hfound : alookup (dedupKeyFor projID issue.title) st1.taskDedupMap with
    | some task =>
      simp only [hfound]
      rw [htm]
      exact h
    | none =>
      simp only [hfound]
      by_cases hkk : (dedupKeyFor projID issue.title == k) = true
      · simp [alookup_ainsert, hkk]
      · have hkk2 : (dedupKeyFor projID issue.title == k) = false := by
          revert hkk
          cases dedupKeyFor projID issue.title == k <;> simp
        simp [alookup_ainsert, hkk2, htm, h]

theorem step_creates_facts (cfg : Config) (st : SyncState) (issue : GoIssue) (k : String) :
    countCreatesFor k (syncIssueStep cfg st issue).2 ≤ 1
    ∧ ((alookup k st.taskDedupMap).isSome = true →
        countCreatesFor k (syncIssueStep cfg st issue).2 = 0)
    ∧ (1 ≤ countCreatesFor k (syncIssueStep cfg st issue).2 →
        (alookup k (syncIssueStep cfg st issue).1.taskDedupMap).isSome = true) := by
  rcases heq : resolveProject cfg st (repoInfo issue).1 (repoInfo issue).2.1 (repoInfo issue).2.2
    with ⟨st1, effs1, p⟩
  have htm : st1.taskDedupMap = st.taskDedupMap := by
    have h0 := resolve_taskMap cfg st (repoInfo issue).1 (repoInfo issue).2.1 (repoInfo issue).2.2
    rw [heq] at h0
    exact h0
  have hc1 : countCreatesFor k effs1 = 0 := by
    have h0 := (resolve_counts cfg st (repoInfo issue).1 (repoInfo issue).2.1
      (repoInfo issue).2.2 k).1
    rw [heq] at h0
    exact h0
  rw [syncIssueStep_eq cfg st issue st1 effs1 p heq]
  cases p with
  | none =>
    simp [hc1, htm]
  | some projID =>
    cases hfound : alookup (dedupKeyFor projID issue.title) st1.taskDedupMap with
    | some task =>
      have hh := (handle_counts cfg task (targetStatusOf issue) k).1
      simp only [hfound]
      simp [countCreatesFor_append, hc1, hh, htm]
    | none =>
      have hct := createTask_count cfg issue projID (repoInfo issue).1 (targetStatusOf issue) k
      have hdbg : countCreatesFor k
          (if cfg.debugMode then [Effect.logNoDedupMatch (dedupKeyFor projID issue.title)]
            else []) = 0 := by
        split_ifs <;> simp [countCreatesFor, createKeyOf]
      simp only [hfound]
      refine ⟨?_, ?_, ?_⟩
      · rw [countCreatesFor_append, countCreatesFor_append, hc1, hdbg, hct]
        split_ifs <;> simp
      · intro hsome
        have hne : ¬(dedupKeyFor projID issue.title = k) := by
          intro hkk
          rw [hkk, htm] at hfound
          rw [hfound] at hsome
          simp at hsome
        rw [countCreatesFor_append, countCreatesFor_append, hc1, hdbg, hct]
        simp [hne]
      · intro hge
        by_cases hkk : (dedupKeyFor projID issue.title == k) = true
        · simp [alookup_ainsert, hkk]
        · have hne : ¬(dedupKeyFor projID issue.title = k) := by
            revert hkk
            simp
          rw [countCreatesFor_append, countCreatesFor_append, hc1, hdbg, hct] at hge
          simp [hne] at hge

theorem runSteps_creates_facts (cfg : Config) (k : String) :
    ∀ (issues : List GoIssue) (st : SyncState),
      countCreatesFor k (runSteps cfg st issues).2 ≤ 1
      ∧ ((alookup k st.taskDedupMap).isSome = true →
          countCreatesFor k (runSteps cfg st issues).2 = 0) := by
  intro issues
  induction issues with
  | nil =>
    intro st
    simp [runSteps, countCreatesFor]
  | cons i rest ih =>
    intro st
    obtain ⟨hle, hzero, hreg⟩ := step_creates_facts cfg st i k
    have heq2 : (runSteps cfg st (i :: rest)).2
        = (syncIssueStep cfg st i).2 ++ (runSteps cfg (syncIssueStep cfg st i).1 rest).2 := rfl
    constructor
    · rw [heq2, countCreatesFor_append]
      rcases Nat.eq_zero_or_pos (countCreatesFor k (syncIssueStep cfg st i).2) with h0 | hpos
      · rw [h0]
        simpa using (ih (syncIssueStep cfg st i).1).1
      · have h1 : countCreatesFor k (syncIssueStep cfg st i).2 = 1 :=
          le_antisymm hle hpos
        have hr0 := (ih (syncIssueStep cfg st i).1).2 (hreg hpos)
        rw [h1, hr0]
    · intro hsome
      rw [heq2, countCreatesFor_append, hzero hsome,
        (ih (syncIssueStep cfg st i).1).2 (step_taskMap_mono cfg st i k hsome)]

/-! ## Claim C1 -/

/-- Claim C1: in any cycle at most one real task-create call is issued per
dedup key, for every configuration, snapshot and issue list; and when an
issue's dedup key is not found in the task index, the engine creates the
task and immediately registers it under its dedup key in the in-cycle
index (so a later issue of the cycle mapping to the same key resolves to
found rather than to a second creation). -/
theorem claim_C1 :
    (∀ (cfg : Config) (projects : List GoProject) (tasks : List GoTask)
        (issues : List GoIssue) (k : String),
      countCreatesFor k (syncIssuesToTududi cfg projects tasks issues).2 ≤ 1)
    ∧ (∀ (cfg : Config) (st : SyncState) (issue : GoIssue) (projID : Int),
        alookup (normalizeName (repoInfo issue).1) st.projectMap = some projID →
        alookup (dedupKeyFor projID issue.title) st.taskDedupMap = none →
        syncIssueStep cfg st issue =
          ({ st with
              taskDedupMap := ainsert (dedupKeyFor projID issue.title)
                ⟨0, issue.title, targetStatusOf issue, projID, ""⟩ st.taskDedupMap },
            (if cfg.debugMode then [Effect.logNoDedupMatch (dedupKeyFor projID issue.title)]
              else []) ++
              createTududiTask cfg issue projID (repoInfo issue).1 (targetStatusOf issue))) := by
  constructor
  · intro cfg ps ts issues k
    exact (runSteps_creates_facts cfg k issues ⟨buildProjectMap ps, buildTaskDedupMap ts, -1, 0⟩).1
  · intro cfg st issue projID hp ht
    have heq := resolve_found cfg st (repoInfo issue).1 (repoInfo issue).2.1
      (repoInfo issue).2.2 projID hp
    rw [syncIssueStep_eq cfg st issue st [] (some projID) heq]
    simp only [ht]
    simp

/-- Witness for claim C1, discharging its hypotheses at concrete inputs. -/
theorem claim_C1_witness :
    countCreatesFor "1|first bug" (syncIssuesToTududi cfgReal [] [] [issueOne, issueOne]).2 ≤ 1
    ∧ syncIssueStep cfgReal stWitness issueOne =
      ({ stWitness with
          taskDedupMap := ainsert (dedupKeyFor 7 issueOne.title)
            ⟨0, issueOne.title, targetStatusOf issueOne, 7, ""⟩ stWitness.taskDedupMap },
        (if cfgReal.debugMode then [Effect.logNoDedupMatch (dedupKeyFor 7 issueOne.title)]
          else []) ++
          createTududiTask cfgReal issueOne 7 (repoInfo issueOne).1 (targetStatusOf issueOne)) :=
  ⟨claim_C1.1 cfgReal [] [] [issueOne, issueOne] "1|first bug",
    claim_C1.2 cfgReal stWitness issueOne 7 (by decide) (by decide)⟩

/-! ## Claim C2 -/

theorem patchesOf_debug (cfg : Config) (n : String) :
    patchesOf (if cfg.debugMode then [Effect.logDedupMatch n] else []) = [] := by
  split_ifs <;> rfl

/-- Claim C2: for a source issue whose dedup key matches an existing sink
task the engine never creates a task; when the issue is closed and the
task's status is not done-equivalent exactly one patch to done-equivalent
is issued; when the issue is open and the task's status is done-equivalent
exactly one patch to open-equivalent is issued; otherwise zero patch calls
are made.  In the string-status variant the sink status `"archived"` is
treated as done-equivalent, so an open issue against an archived task
yields exactly one patch to `"pending"`. -/
theorem claim_C2 :
    (∀ (cfg : Config) (task : GoTask) (tgt : Int),
      (handleExistingTask cfg task tgt).all (fun e => !e.isTaskCreate) = true)
    ∧ (∀ (cfg : Config) (st : SyncState) (issue : GoIssue) (projID : Int) (task : GoTask),
        alookup (normalizeName (repoInfo issue).1) st.projectMap = some projID →
        alookup (dedupKeyFor projID issue.title) st.taskDedupMap = some task →
        syncIssueStep cfg st issue = (st, handleExistingTask cfg task (targetStatusOf issue)))
    ∧ (∀ (cfg : Config) (task : GoTask) (issue : GoIssue),
        cfg.dryRun = false → issue.state = "closed" → task.status ≠ StatusCompleted →
        patchesOf (handleExistingTask cfg task (targetStatusOf issue))
          = [(task.id, StatusCompleted)])
    ∧ (∀ (cfg : Config) (task : GoTask) (issue : GoIssue),
        cfg.dryRun = false → issue.state ≠ "closed" → task.status = StatusCompleted →
        patchesOf (handleExistingTask cfg task (targetStatusOf issue))
          = [(task.id, StatusNotStarted)])
    ∧ (∀ (cfg : Config) (task : GoTask) (issue : GoIssue),
        issue.state = "closed" → task.status = StatusCompleted →
        patchesOf (handleExistingTask cfg task (targetStatusOf issue)) = [])
    ∧ (∀ (cfg : Config) (task : GoTask) (issue : GoIssue),
        issue.state ≠ "closed" → task.status ≠ StatusCompleted →
        patchesOf (handleExistingTask cfg task (targetStatusOf issue)) = [])
    ∧ StrSync.tududiIsDone "archived" = true
    ∧ (∀ t : StrSync.Task, t.status = "archived" →
        StrSync.driftPatches t (StrSync.targetStatusOf "open") = [(t.id, "pending")]) := by
  refine ⟨?_, ?_, ?_, ?_, ?_, ?_, rfl, ?_⟩
  · intro cfg task tgt
    unfold handleExistingTask updateTaskStatus
    split_ifs <;> simp [Effect.isTaskCreate]
  · intro cfg st issue projID task hp ht
    have heq := resolve_found cfg st (repoInfo issue).1 (repoInfo issue).2.1
      (repoInfo issue).2.2 projID hp
    rw [syncIssueStep_eq cfg st issue st [] (some projID) heq]
    simp only [ht]
    simp
  · intro cfg task issue hdr hcl hs
    unfold handleExistingTask updateTaskStatus targetStatusOf
    rw [patchesOf_append, patchesOf_debug]
    simp only [StatusCompleted] at hs
    simp [hcl, hdr, StatusCompleted, StatusNotStarted, patchesOf, hs]
  · intro cfg task issue hdr hop hs
    unfold handleExistingTask updateTaskStatus targetStatusOf
    rw [patchesOf_append, patchesOf_debug]
    simp [hop, hdr, StatusCompleted, StatusNotStarted, patchesOf, hs]
  · intro cfg task issue hcl hs
    unfold handleExistingTask updateTaskStatus targetStatusOf
    rw [patchesOf_append, patchesOf_debug]
    simp [hcl, StatusCompleted, StatusNotStarted, patchesOf, hs]
  · intro cfg task issue hop hs
    unfold handleExistingTask updateTaskStatus targetStatusOf
    rw [patchesOf_append, patchesOf_debug]
    simp only [StatusCompleted] at hs
    simp [hop, StatusCompleted, StatusNotStarted, patchesOf, hs]
  · intro t hts
    unfold StrSync.driftPatches StrSync.targetStatusOf StrSync.tududiIsDone
    simp [hts]

/-- Witness for claim C2, discharging its hypotheses at concrete inputs. -/
theorem claim_C2_witness :
    syncIssueStep cfgReal stFound issueOne =
      (stFound, handleExistingTask cfgReal taskDone (targetStatusOf issueOne))
    ∧ patchesOf (handleExistingTask cfgReal taskPending (targetStatusOf issueClosed))
      = [(taskPending.id, StatusCompleted)]
    ∧ patchesOf (handleExistingTask cfgReal taskDone (targetStatusOf issueOne))
      = [(taskDone.id, StatusNotStarted)]
    ∧ patchesOf (handleExistingTask cfgReal taskDone (targetStatusOf issueClosed)) = []
    ∧ patchesOf (handleExistingTask cfgReal taskPending (targetStatusOf issueOne)) = []
    ∧ StrSync.driftPatches ⟨9, "", "T", "archived"⟩ (StrSync.targetStatusOf "open")
      = [(9, "pending")] :=
  ⟨claim_C2.2.1 cfgReal stFound issueOne 7 taskDone (by decide) (by decide),
    claim_C2.2.2.1 cfgReal taskPending issueClosed rfl rfl (by decide),
    claim_C2.2.2.2.1 cfgReal taskDone issueOne rfl (by decide) rfl,
    claim_C2.2.2.2.2.1 cfgReal taskDone issueClosed rfl rfl,
    claim_C2.2.2.2.2.2.1 cfgReal taskPending issueOne (by decide) (by decide),
    claim_C2.2.2.2.2.2.2.2 ⟨9, "", "T", "archived"⟩ rfl⟩


/-! ## Claim C3 -/

theorem projCount_createEffs (n d s : String) (k : String) :
    countProjCreatesFor k [Effect.logCreatingProject n, Effect.createProjectReq n d s]
      = if normalizeName n = k then 1 else 0 := by
  by_cases hk : normalizeName n = k <;> simp [countProjCreatesFor, projKeyOf, hk]

theorem projCount_debug (cfg : Config) (k key : String) :
    countProjCreatesFor k
      (if cfg.debugMode then [Effect.logNoDedupMatch key] else []) = 0 := by
  split_ifs <;> simp [countProjCreatesFor, projKeyOf]

theorem step_projMap_eq (cfg : Config) (st : SyncState) (issue : GoIssue)
    (st1 : SyncState) (effs1 : List Effect) (p : Option Int)
    (heq : resolveProject cfg st (repoInfo issue).1 (repoInfo issue).2.1 (repoInfo issue).2.2
      = (st1, effs1, p)) :
    (syncIssueStep cfg st issue).1.projectMap = st1.projectMap := by
  rw [syncIssueStep_eq cfg st issue st1 effs1 p heq]
  cases p with
  | none => rfl
  | some projID =>
    cases hfound : alookup (dedupKeyFor projID issue.title) st1.taskDedupMap with
    | some task => simp only [hfound]
    | none => simp only [hfound]

theorem step_proj_count_split (cfg : Config) (st : SyncState) (issue : GoIssue)
    (st1 : SyncState) (effs1 : List Effect) (p : Option Int) (k : String)
    (heq : resolveProject cfg st (repoInfo issue).1 (repoInfo issue).2.1 (repoInfo issue).2.2
      = (st1, effs1, p)) :
    countProjCreatesFor k (syncIssueStep cfg st issue).2 = countProjCreatesFor k effs1 := by
  rw [syncIssueStep_eq cfg st issue st1 effs1 p heq]
  cases p with
  | none => rfl
  | some projID =>
    cases hfound : alookup (dedupKeyFor projID issue.title) st1.taskDedupMap with
    | some task =>
      have hh := (handle_counts cfg task (targetStatusOf issue) k).2
      simp only [hfound]
      simp [countProjCreatesFor_append, hh]
    | none =>
      have hct := createTask_projCount cfg issue projID (repoInfo issue).1
        (targetStatusOf issue) k
      have hdbg := projCount_debug cfg k (dedupKeyFor projID issue.title)
      simp only [hfound]
      simp [countProjCreatesFor_append, hct, hdbg]

theorem step_proj_facts (cfg : Config) (st : SyncState) (issue : GoIssue) (k : String)
    (hdr : cfg.dryRun = false) (hnz : ∀ n, cfg.oracle n ≠ 0) :
    countProjCreatesFor k (syncIssueStep cfg st issue).2 ≤ 1
    ∧ ((alookup k st.projectMap).isSome = true →
        countProjCreatesFor k (syncIssueStep cfg st issue).2 = 0)
    ∧ ((alookup k st.projectMap).isSome = true →
        (alookup k (syncIssueStep cfg st issue).1.projectMap).isSome = true)
    ∧ (1 ≤ countProjCreatesFor k (syncIssueStep cfg st issue).2 →
        (alookup k (syncIssueStep cfg st issue).1.projectMap).isSome = true) := by
  cases halo : alookup (normalizeName (repoInfo issue).1) st.projectMap with
  | some pid =>
    have heq := resolve_found cfg st (repoInfo issue).1 (repoInfo issue).2.1
      (repoInfo issue).2.2 pid halo
    have hcnt := step_proj_count_split cfg st issue st [] (some pid) k heq
    have hmap := step_projMap_eq cfg st issue st [] (some pid) heq
    rw [hcnt, hmap]
    refine ⟨by simp [countProjCreatesFor], fun _ => by simp [countProjCreatesFor],
      fun hv => hv, fun hge => absurd hge (by simp [countProjCreatesFor])⟩
  | none =>
    have heq := resolve_absent_real_ok cfg st (repoInfo issue).1 (repoInfo issue).2.1
      (repoInfo issue).2.2 halo hdr (hnz st.nextProjCall)
    have hcnt := step_proj_count_split cfg st issue _ _ _ k heq
    have hmap := step_projMap_eq cfg st issue _ _ _ heq
    rw [hcnt, hmap, projCount_createEffs]
    refine ⟨by split_ifs <;> simp, ?_, ?_, ?_⟩
    · intro hv
      rw [if_neg]
      intro hkk
      rw [hkk] at halo
      rw [halo] at hv
      simp at hv
    · intro hv
      show (alookup k (ainsert (normalizeName (repoInfo issue).1)
        (cfg.oracle st.nextProjCall) st.projectMap)).isSome = true
      rw [alookup_ainsert]
      split_ifs <;> simp_all
    · intro hge
      show (alookup k (ainsert (normalizeName (repoInfo issue).1)
        (cfg.oracle st.nextProjCall) st.projectMap)).isSome = true
      rw [alookup_ainsert]
      by_cases hkk : normalizeName (repoInfo issue).1 = k
      · simp [hkk]
      · rw [if_neg hkk] at hge
        simp at hge

theorem runSteps_proj_facts (cfg : Config) (k : String) (hdr : cfg.dryRun = false)
    (hnz : ∀ n, cfg.oracle n ≠ 0) :
    ∀ (issues : List GoIssue) (st : SyncState),
      countProjCreatesFor k (runSteps cfg st issues).2 ≤ 1
      ∧ ((alookup k st.projectMap).isSome = true →
          countProjCreatesFor k (runSteps cfg st issues).2 = 0) := by
  intro issues
  induction issues with
  | nil =>
    intro st
    simp [runSteps, countProjCreatesFor]
  | cons i rest ih =>
    intro st
    obtain ⟨hle, hzero, hmono, hreg⟩ := step_proj_facts cfg st i k hdr hnz
    have heq2 : (runSteps cfg st (i :: rest)).2
        = (syncIssueStep cfg st i).2 ++ (runSteps cfg (syncIssueStep cfg st i).1 rest).2 := rfl
    constructor
    · rw [heq2, countProjCreatesFor_append]
      rcases Nat.eq_zero_or_pos (countProjCreatesFor k (syncIssueStep cfg st i).2) with h0 | hpos
      · rw [h0]
        simpa using (ih (syncIssueStep cfg st i).1).1
      · have h1 : countProjCreatesFor k (syncIssueStep cfg st i).2 = 1 :=
          le_antisymm hle hpos
        have hr0 := (ih (syncIssueStep cfg st i).1).2 (hreg hpos)
        rw [h1, hr0]
    · intro hsome
      rw [heq2, countProjCreatesFor_append, hzero hsome,
        (ih (syncIssueStep cfg st i).1).2 (hmono hsome)]

/-- Claim C3 (amended): in real mode, provided every project-create call
returns a nonzero id, at most one project-create call is issued per
normalized repository name per cycle; a name present in the snapshot index
triggers zero creates; and for a name absent from the index the resolution
step issues exactly one create call and records the returned id in the
in-cycle index immediately. -/
theorem claim_C3 (cfg : Config) (hdr : cfg.dryRun = false) (hnz : ∀ n, cfg.oracle n ≠ 0)
    (projects : List GoProject) (tasks : List GoTask) (issues : List GoIssue) (k : String) :
    countProjCreatesFor k (syncIssuesToTududi cfg projects tasks issues).2 ≤ 1
    ∧ ((alookup k (buildProjectMap projects)).isSome = true →
        countProjCreatesFor k (syncIssuesToTududi cfg projects tasks issues).2 = 0)
    ∧ (∀ (st : SyncState) (n d : String) (a : Bool),
        alookup (normalizeName n) st.projectMap = none →
        countProjCreatesFor (normalizeName n) (resolveProject cfg st n d a).2.1 = 1
        ∧ alookup (normalizeName n) (resolveProject cfg st n d a).1.projectMap
          = some (cfg.oracle st.nextProjCall)) := by
  refine ⟨?_, ?_, ?_⟩
  · exact (runSteps_proj_facts cfg k hdr hnz issues
      ⟨buildProjectMap projects, buildTaskDedupMap tasks, -1, 0⟩).1
  · exact (runSteps_proj_facts cfg k hdr hnz issues
      ⟨buildProjectMap projects, buildTaskDedupMap tasks, -1, 0⟩).2
  · intro st n d a habs
    rw [resolve_absent_real_ok cfg st n d a habs hdr (hnz st.nextProjCall)]
    constructor
    · rw [projCount_createEffs, if_pos rfl]
    · show alookup (normalizeName n)
        (ainsert (normalizeName n) (cfg.oracle st.nextProjCall) st.projectMap)
        = some (cfg.oracle st.nextProjCall)
      rw [alookup_ainsert, if_pos]
      simp

/-- Counterexample to claim C3 as stated: when the sink rejects the
project-create call (`createTududiProject` returns id 0), the id is not
recorded, so a later issue of the same repository in the same cycle issues
a second project-create call. -/
theorem claim_C3_cex :
    ¬ (countProjCreatesFor (normalizeName "alpha")
        (syncIssuesToTududi cfgZeroOracle [] [] [issueOne, issueTwo]).2 ≤ 1) := by
  decide

/-- Witness for the amended claim C3, discharging its hypotheses at
concrete inputs. -/
theorem claim_C3_witness :
    countProjCreatesFor "alpha" (syncIssuesToTududi cfgReal [] [] [issueOne, issueTwo]).2 ≤ 1
    ∧ (countProjCreatesFor (normalizeName "alpha")
        (resolveProject cfgReal stEmpty "alpha" "demo" false).2.1 = 1
      ∧ alookup (normalizeName "alpha")
          (resolveProject cfgReal stEmpty "alpha" "demo" false).1.projectMap
        = some (cfgReal.oracle stEmpty.nextProjCall)) :=
  ⟨(claim_C3 cfgReal rfl (fun _ => one_ne_zero) [] [] [issueOne, issueTwo] "alpha").1,
    (claim_C3 cfgReal rfl (fun _ => one_ne_zero) [] [] [] "x").2.2 stEmpty "alpha" "demo" false
      (by decide)⟩

/-! ## Claim C8 -/

/-- Claim C8: when a repository's normalized name is absent from the
project index, the real-mode create call carries lifecycle status `"done"`
if the repository is archived and `"planned"` otherwise; and when the
issue carries no repository detail the archived flag is false, so such
repositories get the default `"planned"` status. -/
theorem claim_C8 :
    (∀ (cfg : Config) (st : SyncState) (n d : String) (a : Bool),
      cfg.dryRun = false → alookup (normalizeName n) st.projectMap = none →
      (resolveProject cfg st n d a).2.1 =
        [Effect.logCreatingProject n,
          Effect.createProjectReq n
            (if d == "" then "Imported GitHub Repository: " ++ n else d)
            (if a then "done" else "planned")])
    ∧ (∀ issue : GoIssue, issue.repo = none → (repoInfo issue).2.2 = false) := by
  constructor
  · intro cfg st n d a hdr habs
    by_cases hz : cfg.oracle st.nextProjCall = 0
    · rw [resolve_absent_real_fail cfg st n d a habs hdr hz]
    · rw [resolve_absent_real_ok cfg st n d a habs hdr hz]
  · intro issue hrepo
    unfold repoInfo
    rw [hrepo]

/-- Witness for claim C8, discharging its hypotheses at concrete inputs. -/
theorem claim_C8_witness :
    (resolveProject cfgReal stEmpty "beta" "" true).2.1 =
      [Effect.logCreatingProject "beta",
        Effect.createProjectReq "beta"
          (if "" == "" then "Imported GitHub Repository: " ++ "beta" else "")
          (if true then "done" else "planned")]
    ∧ (repoInfo ⟨9, 9, "t", "b", "u", "open", [], false, none, none, none⟩).2.2 = false :=
  ⟨claim_C8.1 cfgReal stEmpty "beta" "" true rfl (by decide),
    claim_C8.2 ⟨9, 9, "t", "b", "u", "open", [], false, none, none, none⟩ rfl⟩

/-! ## Claim C10 -/

theorem targetStatus_cases (issue : GoIssue) :
    targetStatusOf issue = StatusNotStarted ∨ targetStatusOf issue = StatusCompleted := by
  unfold targetStatusOf
  split_ifs with h
  · right; rfl
  · left; rfl

theorem handle_statuses (cfg : Config) (task : GoTask) (tgt : Int) (s : Int)
    (h : s ∈ writtenStatuses (handleExistingTask cfg task tgt)) :
    s = StatusNotStarted ∨ s = StatusCompleted := by
  unfold handleExistingTask updateTaskStatus at h
  split_ifs at h <;>
    simp [writtenStatuses, StatusNotStarted, StatusCompleted] at h <;>
    simp [h, StatusNotStarted, StatusCompleted]

theorem createTask_statuses (cfg : Config) (issue : GoIssue) (pid : Int) (rn : String)
    (tgt : Int) (s : Int) (h : s ∈ writtenStatuses (createTududiTask cfg issue pid rn tgt)) :
    s = tgt := by
  unfold createTududiTask at h
  split_ifs at h <;> simp [writtenStatuses] at h
  exact h

theorem statuses_debug (cfg : Config) (key : String) :
    writtenStatuses (if cfg.debugMode then [Effect.logNoDedupMatch key] else []) = [] := by
  split_ifs <;> rfl

theorem step_statuses (cfg : Config) (st : SyncState) (issue : GoIssue) (s : Int)
    (h : s ∈ writtenStatuses (syncIssueStep cfg st issue).2) :
    s = StatusNotStarted ∨ s = StatusCompleted := by
  rcases heq : resolveProject cfg st (repoInfo issue).1 (repoInfo issue).2.1 (repoInfo issue).2.2
    with ⟨st1, effs1, p⟩
  have h1 : writtenStatuses effs1 = [] := by
    have h0 := (resolve_counts cfg st (repoInfo issue).1 (repoInfo issue).2.1
      (repoInfo issue).2.2 "").2.2
    rw [heq] at h0
    exact h0
  rw [syncIssueStep_eq cfg st issue st1 effs1 p heq] at h
  cases p with
  | none =>
    rw [h1] at h
    cases h
  | some projID =>
    cases hfound : alookup (dedupKeyFor projID issue.title) st1.taskDedupMap with
    | some task =>
      simp only [hfound] at h
      rw [writtenStatuses_append, h1] at h
      exact handle_statuses cfg task (targetStatusOf issue) s (by simpa using h)
    | none =>
      simp only [hfound] at h
      rw [writtenStatuses_append, writtenStatuses_append, h1, statuses_debug] at h
      have := createTask_statuses cfg issue projID (repoInfo issue).1 (targetStatusOf issue) s
        (by simpa using h)
      rw [this]
      exact targetStatus_cases issue

theorem runSteps_statuses (cfg : Config) (s : Int) :
    ∀ (issues : List GoIssue) (st : SyncState),
      s ∈ writtenStatuses (runSteps cfg st issues).2 →
      s = StatusNotStarted ∨ s = StatusCompleted := by
  intro issues
  induction issues with
  | nil =>
    intro st h
    simp [runSteps, writtenStatuses] at h
  | cons i rest ih =>
    intro st h
    have heq2 : (runSteps cfg st (i :: rest)).2
        = (syncIssueStep cfg st i).2 ++ (runSteps cfg (syncIssueStep cfg st i).1 rest).2 := rfl
    rw [heq2, writtenStatuses_append, List.mem_append] at h
    rcases h with h | h
    · exact step_statuses cfg st i s h
    · exact ih (syncIssueStep cfg st i).1 h

/-- Claim C10: every status the engine writes to the sink, on task creation
or in a status patch, is open-equivalent (`0` / `"pending"`) or
done-equivalent (`2` / `"completed"`); no other status such as
`"archived"` or in-progress (`1`) is ever written, on any input, in either
the integer-status or the string-status variant. -/
theorem claim_C10 :
    (∀ (cfg : Config) (projects : List GoProject) (tasks : List GoTask)
        (issues : List GoIssue) (s : Int),
      s ∈ writtenStatuses (syncIssuesToTududi cfg projects tasks issues).2 →
      s = StatusNotStarted ∨ s = StatusCompleted)
    ∧ (∀ state : String, StrSync.targetStatusOf state = "pending"
        ∨ StrSync.targetStatusOf state = "completed")
    ∧ (∀ (t : StrSync.Task) (tgt : String) (pr : Int × String),
        pr ∈ StrSync.driftPatches t tgt → pr.2 = "completed" ∨ pr.2 = "pending") := by
  refine ⟨?_, ?_, ?_⟩
  · intro cfg projects tasks issues s h
    exact runSteps_statuses cfg s issues
      ⟨buildProjectMap projects, buildTaskDedupMap tasks, -1, 0⟩ h
  · intro state
    unfold StrSync.targetStatusOf
    split_ifs
    · right; rfl
    · left; rfl
  · intro t tgt pr h
    unfold StrSync.driftPatches at h
    dsimp only at h
    split_ifs at h <;> simp at h <;> simp [h]

/-- Witness for claim C10, discharging its hypotheses at concrete inputs. -/
theorem claim_C10_witness :
    ((2 : Int) = StatusNotStarted ∨ (2 : Int) = StatusCompleted)
    ∧ (((9 : Int), "completed").2 = "completed" ∨ ((9 : Int), "completed").2 = "pending") :=
  ⟨claim_C10.1 cfgReal [] [] [issueClosed] 2 (by decide),
    claim_C10.2.2 ⟨9, "", "T", "pending"⟩ "completed" (9, "completed") (by decide)⟩


/-! ## Claim C5 -/

theorem handle_dry_all (cfg : Config) (task : GoTask) (tgt : Int)
    (hdry : cfg.dryRun = true) :
    (handleExistingTask cfg task tgt).all (fun e => !e.isMutating) = true := by
  unfold handleExistingTask updateTaskStatus
  rw [hdry]
  split_ifs <;> first | rfl | simp_all

theorem createTask_dry_all (cfg : Config) (issue : GoIssue) (pid : Int) (rn : String)
    (tgt : Int) (hdry : cfg.dryRun = true) :
    (createTududiTask cfg issue pid rn tgt).all (fun e => !e.isMutating) = true := by
  unfold createTududiTask
  rw [hdry]
  rfl

theorem debug_all (cfg : Config) (key : String) :
    ((if cfg.debugMode then [Effect.logNoDedupMatch key] else []).all
      (fun e => !e.isMutating)) = true := by
  split_ifs <;> rfl

theorem step_dry_all (cfg : Config) (st : SyncState) (issue : GoIssue)
    (hdry : cfg.dryRun = true) :
    ((syncIssueStep cfg st issue).2.all (fun e => !e.isMutating)) = true := by
  cases halo : alookup (normalizeName (repoInfo issue).1) st.projectMap with
  | some pid =>
    have heq := resolve_found cfg st (repoInfo issue).1 (repoInfo issue).2.1
      (repoInfo issue).2.2 pid halo
    rw [syncIssueStep_eq cfg st issue st [] (some pid) heq]
    cases hfound : alookup (dedupKeyFor pid issue.title) st.taskDedupMap with
    | some task =>
      simp only [hfound]
      simp [List.all_append, handle_dry_all cfg task (targetStatusOf issue) hdry]
    | none =>
      simp only [hfound]
      simp [List.all_append, createTask_dry_all cfg issue pid (repoInfo issue).1
        (targetStatusOf issue) hdry, debug_all]
  | none =>
    have heq := resolve_absent_dry cfg st (repoInfo issue).1 (repoInfo issue).2.1
      (repoInfo issue).2.2 halo hdry
    rw [syncIssueStep_eq cfg st issue _ _ _ heq]
    dsimp only
    cases hfound : alookup (dedupKeyFor st.mockProjectIDCounter issue.title)
        st.taskDedupMap with
    | some task =>
      simp only [hfound, List.all_append, handle_dry_all cfg task (targetStatusOf issue) hdry]
      rfl
    | none =>
      simp only [hfound, List.all_append,
        createTask_dry_all cfg issue st.mockProjectIDCounter (repoInfo issue).1
          (targetStatusOf issue) hdry,
        debug_all cfg (dedupKeyFor st.mockProjectIDCounter issue.title)]
      rfl

theorem runSteps_dry_all (cfg : Config) (hdry : cfg.dryRun = true) :
    ∀ (issues : List GoIssue) (st : SyncState),
      ((runSteps cfg st issues).2.all (fun e => !e.isMutating)) = true := by
  intro issues
  induction issues with
  | nil => intro st; rfl
  | cons i rest ih =>
    intro st
    have heq2 : (runSteps cfg st (i :: rest)).2
        = (syncIssueStep cfg st i).2 ++ (runSteps cfg (syncIssueStep cfg st i).1 rest).2 := rfl
    rw [heq2, List.all_append, step_dry_all cfg st i hdry, ih (syncIssueStep cfg st i).1]
    rfl

theorem step_mock_eq (cfg : Config) (st : SyncState) (issue : GoIssue)
    (st1 : SyncState) (effs1 : List Effect) (p : Option Int)
    (heq : resolveProject cfg st (repoInfo issue).1 (repoInfo issue).2.1 (repoInfo issue).2.2
      = (st1, effs1, p)) :
    (syncIssueStep cfg st issue).1.mockProjectIDCounter = st1.mockProjectIDCounter := by
  rw [syncIssueStep_eq cfg st issue st1 effs1 p heq]
  cases p with
  | none => rfl
  | some projID =>
    cases hfound : alookup (dedupKeyFor projID issue.title) st1.taskDedupMap with
    | some task => simp only [hfound]
    | none => simp only [hfound]

theorem step_dry_projneg (cfg : Config) (st : SyncState) (issue : GoIssue)
    (hdry : cfg.dryRun = true) (hmock : st.mockProjectIDCounter < 0) :
    (syncIssueStep cfg st issue).1.mockProjectIDCounter < 0
    ∧ ∀ (k : String) (id : Int),
        alookup k (syncIssueStep cfg st issue).1.projectMap = some id →
        alookup k st.projectMap = some id ∨ id < 0 := by
  cases halo : alookup (normalizeName (repoInfo issue).1) st.projectMap with
  | some pid =>
    have heq := resolve_found cfg st (repoInfo issue).1 (repoInfo issue).2.1
      (repoInfo issue).2.2 pid halo
    rw [step_mock_eq cfg st issue st [] (some pid) heq,
      step_projMap_eq cfg st issue st [] (some pid) heq]
    exact ⟨hmock, fun k id h => Or.inl h⟩
  | none =>
    have heq := resolve_absent_dry cfg st (repoInfo issue).1 (repoInfo issue).2.1
      (repoInfo issue).2.2 halo hdry
    rw [step_mock_eq cfg st issue _ _ _ heq, step_projMap_eq cfg st issue _ _ _ heq]
    refine ⟨by dsimp only; omega, ?_⟩
    intro k id h
    dsimp only at h
    rw [alookup_ainsert] at h
    split_ifs at h with hkk
    · right
      injection h with h2
      omega
    · left
      exact h

theorem runSteps_dry_projneg (cfg : Config) (hdry : cfg.dryRun = true) :
    ∀ (issues : List GoIssue) (st : SyncState), st.mockProjectIDCounter < 0 →
      (runSteps cfg st issues).1.mockProjectIDCounter < 0
      ∧ ∀ (k : String) (id : Int),
          alookup k (runSteps cfg st issues).1.projectMap = some id →
          alookup k st.projectMap = some id ∨ id < 0 := by
  intro issues
  induction issues with
  | nil =>
    intro st hmock
    exact ⟨hmock, fun k id h => Or.inl h⟩
  | cons i rest ih =>
    intro st hmock
    obtain ⟨hm1, hp1⟩ := step_dry_projneg cfg st i hdry hmock
    obtain ⟨hm2, hp2⟩ := ih (syncIssueStep cfg st i).1 hm1
    refine ⟨hm2, ?_⟩
    intro k id h
    rcases hp2 k id h with h2 | h2
    · exact hp1 k id h2
    · exact Or.inr h2

/-- Claim C5: with the dry-run flag set a full cycle performs zero real
mutating calls on any input; every project id the cycle adds to the
in-cycle project index is a negative locally-assigned placeholder; and the
dry-run create path logs the project and task it would have created while
still registering both in the in-cycle indexes (mock id in the project
index, dedup entry in the task index), so later issues of the same
simulated cycle resolve consistently. -/
theorem claim_C5 :
    (∀ (cfg : Config) (projects : List GoProject) (tasks : List GoTask)
        (issues : List GoIssue), cfg.dryRun = true →
      ((syncIssuesToTududi cfg projects tasks issues).2.all (fun e => !e.isMutating)) = true)
    ∧ (∀ (cfg : Config) (projects : List GoProject) (tasks : List GoTask)
        (issues : List GoIssue) (k : String) (id : Int), cfg.dryRun = true →
        alookup k (buildProjectMap projects) = none →
        alookup k (syncIssuesToTududi cfg projects tasks issues).1.projectMap = some id →
        id < 0)
    ∧ (∀ (cfg : Config) (st : SyncState) (issue : GoIssue),
        cfg.dryRun = true → cfg.debugMode = false →
        alookup (normalizeName (repoInfo issue).1) st.projectMap = none →
        alookup (dedupKeyFor st.mockProjectIDCounter issue.title) st.taskDedupMap = none →
        syncIssueStep cfg st issue =
          ({ projectMap := ainsert (normalizeName (repoInfo issue).1)
                st.mockProjectIDCounter st.projectMap,
              taskDedupMap := ainsert (dedupKeyFor st.mockProjectIDCounter issue.title)
                ⟨0, issue.title, targetStatusOf issue, st.mockProjectIDCounter, ""⟩
                st.taskDedupMap,
              mockProjectIDCounter := st.mockProjectIDCounter - 1,
              nextProjCall := st.nextProjCall },
            [Effect.logDryRunCreateProject (repoInfo issue).1,
              Effect.logDryRunCreateTask issue.title (targetStatusOf issue)])) := by
  refine ⟨?_, ?_, ?_⟩
  · intro cfg projects tasks issues hdry
    exact runSteps_dry_all cfg hdry issues
      ⟨buildProjectMap projects, buildTaskDedupMap tasks, -1, 0⟩
  · intro cfg projects tasks issues k id hdry habs hlook
    have hfacts := runSteps_dry_projneg cfg hdry issues
      ⟨buildProjectMap projects, buildTaskDedupMap tasks, -1, 0⟩ (by norm_num)
    rcases hfacts.2 k id hlook with h2 | h2
    · rw [show (⟨buildProjectMap projects, buildTaskDedupMap tasks, -1, 0⟩ :
        SyncState).projectMap = buildProjectMap projects from rfl] at h2
      rw [habs] at h2
      cases h2
    · exact h2
  · intro cfg st issue hdry hdbg habs hmiss
    have heq := resolve_absent_dry cfg st (repoInfo issue).1 (repoInfo issue).2.1
      (repoInfo issue).2.2 habs hdry
    rw [syncIssueStep_eq cfg st issue _ _ _ heq]
    dsimp only
    simp only [hmiss, hdbg]
    simp [createTududiTask, hdry]

/-- Witness for claim C5, discharging its hypotheses at concrete inputs. -/
theorem claim_C5_witness :
    ((syncIssuesToTududi cfgDry [] [] [issueOne, issueTwo]).2.all
      (fun e => !e.isMutating)) = true
    ∧ (-1 : Int) < 0
    ∧ syncIssueStep cfgDry stEmpty issueOne =
      ({ projectMap := ainsert (normalizeName (repoInfo issueOne).1)
            stEmpty.mockProjectIDCounter stEmpty.projectMap,
          taskDedupMap := ainsert (dedupKeyFor stEmpty.mockProjectIDCounter issueOne.title)
            ⟨0, issueOne.title, targetStatusOf issueOne, stEmpty.mockProjectIDCounter, ""⟩
            stEmpty.taskDedupMap,
          mockProjectIDCounter := stEmpty.mockProjectIDCounter - 1,
          nextProjCall := stEmpty.nextProjCall },
        [Effect.logDryRunCreateProject (repoInfo issueOne).1,
          Effect.logDryRunCreateTask issueOne.title (targetStatusOf issueOne)]) :=
  ⟨claim_C5.1 cfgDry [] [] [issueOne, issueTwo] rfl,
    claim_C5.2.1 cfgDry [] [] [issueOne] "alpha" (-1) rfl (by decide) (by decide),
    claim_C5.2.2 cfgDry stEmpty issueOne rfl rfl (by decide) (by decide)⟩

/-! ## Claim C6 -/

/-- Claim C6 (amended): only a failure of the current-user fetch aborts the
cycle early — a single error log and no sink interaction at all.  A failed
issue search is logged and the cycle continues exactly as if the search
had returned no issues (the owned-repository issues are still processed
and may mutate the sink); a failed repository listing is logged and the
cycle continues exactly as if the listing had returned no repositories
(the searched issues are still processed); and when both reads fail the
cycle just logs the two errors and touches nothing. -/
theorem claim_C6 :
    (∀ (cfg : Config) (env : GhEnv) (projects : List GoProject) (tasks : List GoTask),
      env.user = none → runSync cfg env projects tasks = [Effect.logUserError])
    ∧ (∀ (cfg : Config) (env : GhEnv) (projects : List GoProject) (tasks : List GoTask)
        (login : String),
        env.user = some login → env.searchResult = none →
        runSync cfg env projects tasks =
          Effect.logSearchError ::
            runSync cfg { env with searchResult := some [] } projects tasks)
    ∧ (∀ (cfg : Config) (env : GhEnv) (projects : List GoProject) (tasks : List GoTask)
        (login : String) (found : List GoIssue),
        env.user = some login → env.searchResult = some found → env.reposResult = none →
        runSync cfg env projects tasks =
          Effect.logReposError ::
            runSync cfg { env with reposResult := some [] } projects tasks)
    ∧ (∀ (cfg : Config) (env : GhEnv) (projects : List GoProject) (tasks : List GoTask)
        (login : String),
        env.user = some login → env.searchResult = none → env.reposResult = none →
        runSync cfg env projects tasks = [Effect.logSearchError, Effect.logReposError]) := by
  refine ⟨?_, ?_, ?_, ?_⟩
  · intro cfg env ps ts h
    unfold runSync
    rw [h]
  · intro cfg env ps ts login hu hs
    unfold runSync
    dsimp only
    rw [hu, hs]
    simp [searchCollect]
  · intro cfg env ps ts login found hu hs hr
    unfold runSync
    dsimp only
    rw [hu, hs, hr]
    simp [reposCollect]
  · intro cfg env ps ts login hu hs hr
    unfold runSync
    rw [hu, hs, hr]
    rfl

/-- Counterexample to claim C6 as stated: a cycle whose issue search fails
(while the user fetch and repository listing succeed) still performs sink
mutations for the issues collected from the owned repositories. -/
theorem claim_C6_cex :
    envSearchFails.searchResult = none
    ∧ ((runSync cfgReal envSearchFails [] []).any Effect.isMutating) = true := by
  exact ⟨rfl, by decide⟩

/-- Witness for the amended claim C6, discharging its hypotheses at
concrete inputs. -/
theorem claim_C6_witness :
    runSync cfgReal envUserFails [] [] = [Effect.logUserError]
    ∧ runSync cfgReal envSearchFails [] [] =
      Effect.logSearchError ::
        runSync cfgReal { envSearchFails with searchResult := some [] } [] []
    ∧ runSync cfgReal envReposFails [] [] =
      Effect.logReposError ::
        runSync cfgReal { envReposFails with reposResult := some [] } [] []
    ∧ runSync cfgReal envBothFail [] [] = [Effect.logSearchError, Effect.logReposError] :=
  ⟨claim_C6.1 cfgReal envUserFails [] [] rfl,
    claim_C6.2.1 cfgReal envSearchFails [] [] "me" rfl rfl,
    claim_C6.2.2.1 cfgReal envReposFails [] [] "me" [issueOne] rfl rfl rfl,
    claim_C6.2.2.2 cfgReal envBothFail [] [] "me" rfl rfl rfl⟩
